import Mathlib

/-!
# appelOffre: request orchestration of the two AngularJS controllers

Shallow embedding of

* `src/main/webapp/app/home_eligibleProjects/home_eligibleProjects.controller.js`
  (list fetch, photo fan-out, photo fan-in), and
* `src/main/webapp/app/CreateProject/formulaire.controller.js` (multipart submission).

The controllers are callback code over a mutable view model `vm` and the `$http` service.
Here the view model is an explicit record, every `$http.post` call appends one `Request` to an
outbound log, and every callback is a function from the state before to the state after.
`console.log` calls are diagnostics and are left out.
-/

namespace AppelOffre

/-! ## JavaScript values -/

/-- A JavaScript number that is a safe integer: an integer of magnitude below `2 ^ 53`
(`Number.MAX_SAFE_INTEGER` is `2 ^ 53 - 1`). A double holds such an integer exactly and `String`
prints it in decimal. Other numbers (fractions, larger magnitudes, which print in exponent form
from `1e21` on) are outside this model. -/
structure SafeInt where
  val : Int
  safe : val.natAbs < 2 ^ 53
  deriving DecidableEq

/-- JSON-like JavaScript values. Numbers are the safe integers (identifiers are integers). An
object is its list of own members, in insertion order, keys distinct. -/
inductive JSValue where
  | undefined
  | null
  | bool (b : Bool)
  | num (n : SafeInt)
  | str (s : String)
  | arr (xs : List JSValue)
  | obj (fields : List (String × JSValue))

/-- A thrown JavaScript error. The only one this code can raise is the `TypeError` of reading a
member of `undefined` or `null`. -/
inductive JSError where
  | typeError
  deriving DecidableEq, Repr

/-- The member read `v.k` for the member names this program reads (`projectPIC`, `id`, `link`):
a `TypeError` on `undefined` and `null`, the own member of an object (`undefined` when there is
none), and `undefined` on booleans, numbers, strings and arrays. The program reads `projectPIC`
and `id` on such values, which they do not have; it reads `link` only where `projectPIC.id` was
read before, so on objects. -/
def JSValue.member (v : JSValue) (k : String) : Except JSError JSValue :=
  match v with
  | .undefined => .error .typeError
  | .null => .error .typeError
  | .obj fields => .ok ((fields.lookup k).getD .undefined)
  | _ => .ok .undefined

mutual
/-- The conversion `String(v)`. A safe integer prints in decimal. -/
def JSValue.toStr : JSValue → String
  | .undefined => "undefined"
  | .null => "null"
  | .bool true => "true"
  | .bool false => "false"
  | .num n => toString n.val
  | .str s => s
  | .arr xs => JSValue.joinStr xs
  | .obj _ => "[object Object]"
/-- The conversion `Array.prototype.join` of `String(array)`: the elements separated by commas,
`undefined` and `null` elements contributing the empty string. -/
def JSValue.joinStr : List JSValue → String
  | [] => ""
  | [x] => JSValue.elemStr x
  | x :: y :: rest => JSValue.elemStr x ++ "," ++ JSValue.joinStr (y :: rest)
/-- One element of a joined array. -/
def JSValue.elemStr : JSValue → String
  | .undefined => ""
  | .null => ""
  | .bool true => "true"
  | .bool false => "false"
  | .num n => toString n.val
  | .str s => s
  | .arr xs => JSValue.joinStr xs
  | .obj _ => "[object Object]"
end

/-! ## Outbound requests -/

/-- A binary blob (a chosen file): its content type and bytes. -/
structure Blob where
  contentType : String
  bytes : List Nat
  deriving DecidableEq, Repr

/-- What the controllers hand to `FormData.append`: a JavaScript value, a blob, or the
`FileList` of a file input. -/
inductive HostValue where
  | js (v : JSValue)
  | blob (b : Blob)
  | fileList (files : List Blob)

/-- The value of one `FormData` entry: a string or a file. -/
inductive FormEntry where
  | text (s : String)
  | file (b : Blob)
  deriving DecidableEq, Repr

/-- A `FormData` body: its entries in the order they were appended. -/
abbrev FormData := List (String × FormEntry)

/-- The call `fd.append(name, value)`: a blob is stored as a file, anything else is converted
with `String(value)`. -/
def FormData.append (fd : FormData) (name : String) (value : HostValue) : FormData :=
  fd ++ [(name, match value with
    | .blob b => .file b
    | .js v => .text v.toStr
    | .fileList _ => .text "[object FileList]")]

/-- One `$http` call: method, URL, body and the `headers` of its configuration, where a header
set to `undefined` is `none`. Both controllers pass `transformRequest: angular.identity`, so
the body goes out as built. -/
structure Request where
  method : String
  url : String
  body : FormData
  headers : List (String × Option String)
  deriving DecidableEq, Repr

/-! ## home_eligibleProjects.controller.js -/

/-- An eligible project as the list endpoint returns it: its `id`, a safe integer, and its other
members,
which the controller passes through. -/
structure EligibleProject where
  id : SafeInt
  display : List (String × JSValue)

/-- The view model of `home_eligibleProjectsController`. -/
structure VM where
  account : JSValue
  isAuthenticated : JSValue
  photos : List JSValue
  eligibleProjects : List EligibleProject

/-- The controller's state: its view model and the `$http` calls issued so far. -/
structure World where
  vm : VM
  requests : List Request

/-- How a callback ended: it returned a value or it threw. -/
inductive Completion where
  | returned (v : JSValue)
  | thrown (e : JSError)

/-- The view model as the constructor sets it (lines 13-20): no account, `photos = []`,
`eligibleProjects = []`. -/
def VM.initial : VM :=
  { account := .null, isAuthenticated := .null, photos := [], eligibleProjects := [] }

/-- The request of `getAllPhoto` (lines 54-65): a `FormData` with the one part `idProject`,
which `append` stores as `String(idProject)`, posted to `/api/get-photo` with `Content-Type`
set to `undefined`. -/
def getPhotoRequest (idProject : SafeInt) : Request :=
  { method := "POST"
    url := "/api/get-photo"
    body := FormData.append [] "idProject" (.js (.num idProject))
    headers := [("Content-Type", none)] }

/-- The function `getAllPhoto(idProject)` up to the `$http.post` call (lines 47-66): nothing for
`idProject == 0`, otherwise one request. -/
def getAllPhoto (idProject : SafeInt) (w : World) : World :=
  if idProject.val == 0 then w
  else { w with requests := w.requests ++ [getPhotoRequest idProject] }

/-- The function `getAllPhotoForAllProject(projects)` (lines 39-45): `angular.forEach` visits the
array in index order and calls `getAllPhoto(value.id)`. -/
def getAllPhotoForAllProject (projects : List EligibleProject) (w : World) : World :=
  projects.foldl (fun w value => getAllPhoto value.id w) w

/-- The object literal of line 71, `{idproject : value.projectPIC.id, link : value.link}`,
members evaluated left to right. -/
def photoRecord (value : JSValue) : Except JSError JSValue := do
  let projectPIC ← value.member "projectPIC"
  let id ← projectPIC.member "id"
  let link ← value.member "link"
  pure (.obj [("idproject", id), ("link", link)])

/-- The loop of lines 70-72 over the response array: each element's record is pushed onto
`vm.photos`; a throw ends the loop and leaves what was pushed before it. -/
def pushPhotos : List JSValue → List JSValue → List JSValue × Option JSError
  | [], photos => (photos, none)
  | value :: rest, photos =>
    match photoRecord value with
    | .ok record => pushPhotos rest (photos ++ [record])
    | .error e => (photos, some e)

/-- The success callback of `getAllPhoto` (lines 67-75) on a response whose `data` is an array:
it pushes the photos and returns `true`, unless the loop threw. -/
def getAllPhotoSuccess (data : List JSValue) (vm : VM) : VM × Completion :=
  match pushPhotos data vm.photos with
  | (photos, none) => ({ vm with photos := photos }, .returned (.bool true))
  | (photos, some e) => ({ vm with photos := photos }, .thrown e)

/-- The error callback of `getAllPhoto` (lines 76-79): it logs and returns `false`. -/
def getAllPhotoError (_err : JSValue) (vm : VM) : VM × Completion :=
  (vm, .returned (.bool false))

/-- The outcome of one photo leg: a response with a `data` array, or a failure with its
payload. -/
inductive LegResult where
  | success (data : List JSValue)
  | failure (err : JSValue)

/-- One leg settles: the matching callback runs. What it returns or throws goes to the promise
machinery, not to the other legs, so only the view model is kept. -/
def handleLeg (vm : VM) (leg : LegResult) : VM :=
  match leg with
  | .success data => (getAllPhotoSuccess data vm).1
  | .failure err => (getAllPhotoError err vm).1

/-- Legs settle one after the other, in completion order. -/
def runLegs (legs : List LegResult) (vm : VM) : VM :=
  legs.foldl handleLeg vm

/-- The outcome of the list fetch `EligibleProject.query`: the array of projects, or a
failure. -/
inductive ListResult where
  | success (result : List EligibleProject)
  | failure (err : JSValue)

/-- The callback given to `EligibleProject.query` (lines 33-36). -/
def queryCallback (result : List EligibleProject) (w : World) : World :=
  getAllPhotoForAllProject result { w with vm := { w.vm with eligibleProjects := result } }

/-- The function `getEligibleProjects()` (lines 32-37) together with the settlement of its
query: the success callback on a list, and nothing on a failure, for which `query` is given no
callback. -/
def getEligibleProjects (response : ListResult) (w : World) : World :=
  match response with
  | .success result => queryCallback result w
  | .failure _ => w

/-- The constructor `home_eligibleProjectsController` (lines 11-28) with the settlement of its list
fetch: a fresh view model, then `getEligibleProjects()`. The `$http` log carries on. The account
lookup `getAccount()` writes `vm.account` and `vm.isAuthenticated` only and is left out. -/
def home_eligibleProjectsController (response : ListResult) (log : List Request) : World :=
  getEligibleProjects response { vm := VM.initial, requests := log }

/-- What one settled leg adds to the photo collection: the records of the response's elements up
to the first one whose record cannot be built, nothing for a failure. -/
def LegResult.contribution : LegResult → List JSValue
  | .success data => (pushPhotos data []).1
  | .failure _ => []

/-- The shape `{projectPIC: {id}, link}` of a response element: an object with a member
`projectPIC` that is an object with a member `id`, and with a member `link`. Gives the
element's `id` and `link`. -/
def shapedPhoto : JSValue → Option (JSValue × JSValue)
  | .obj fields =>
    match fields.lookup "projectPIC", fields.lookup "link" with
    | some (.obj pic), some link =>
      match pic.lookup "id" with
      | some id => some (id, link)
      | none => none
    | _, _ => none
  | _ => none

/-- A response element that is an object without a member `projectPIC`. -/
def lacksProjectPIC : JSValue → Bool
  | .obj fields => (fields.lookup "projectPIC").isNone
  | _ => false

/-- One settled photo leg of a fan-out: the `idProject` its request carried and its outcome. -/
structure SettledLeg where
  idProject : SafeInt
  result : LegResult

/-- A response element answers for project `idProject`: if its `projectPIC.id` can be read, it
is the number `idProject`. -/
def answersFor (idProject : SafeInt) (value : JSValue) : Bool :=
  match value.member "projectPIC" with
  | .error _ => true
  | .ok pic =>
    match pic.member "id" with
    | .error _ => true
    | .ok (.num n) => n.val == idProject.val
    | .ok _ => false

/-- The response of a settled leg carries photos of the requested project only: every element
answers for the id the leg asked for. A failed leg carries nothing. -/
def SettledLeg.ownPhotosOnly (leg : SettledLeg) : Bool :=
  match leg.result with
  | .success data => data.all (answersFor leg.idProject)
  | .failure _ => true

/-! ## formulaire.controller.js -/

/-- The view model of `FormulaireController`: the members the constructor sets (lines 18-21) and
`titre`, which `vm.save` reads and the controller never assigns. -/
structure FormVM where
  fileToUpload : HostValue
  description : String
  title : String
  allActivities : List JSValue
  titre : JSValue

/-- The form controller's state: its view model and the `$http` calls issued so far. -/
structure FormWorld where
  vm : FormVM
  requests : List Request

/-- The view model as the constructor sets it (lines 18-21); `titre` is not set. -/
def FormVM.initial : FormVM :=
  { fileToUpload := .js .null, description := "", title := "", allActivities := [],
    titre := .undefined }

/-- The method `vm.DefineFileToUpload(files)` (lines 27-29). -/
def DefineFileToUpload (files : HostValue) (vm : FormVM) : FormVM :=
  { vm with fileToUpload := files }

/-- The body built by `vm.save` (lines 43-48). -/
def saveFormData (vm : FormVM) : FormData :=
  let fd : FormData := []
  let fd := fd.append "images" vm.fileToUpload
  let fd := fd.append "activities" (.js (.arr vm.allActivities))
  let fd := fd.append "description" (.js (.str vm.description))
  let fd := fd.append "title" (.js vm.titre)
  fd

/-- The method `vm.save()` up to the `$http.post` call (lines 38-59). -/
def save (w : FormWorld) : FormWorld :=
  { w with requests := w.requests ++
      [{ method := "POST"
         url := "/api/create-new-project"
         body := saveFormData w.vm
         headers := [("Content-Type", none), ("Accept", some "*/*")] }] }

/-- The success callback of `vm.save` (lines 60-69): it only logs. -/
def saveSuccess (_data : JSValue) (w : FormWorld) : FormWorld := w

/-- The error callback of `vm.save` (lines 70-72): it only logs. -/
def saveError (_err : JSValue) (w : FormWorld) : FormWorld := w

/-! ## Decimal strings -/

/-- The value of a decimal digit character. -/
def digitValue (c : Char) : Nat := c.toNat - 48

/-- The number a string of decimal digits denotes. -/
def decimalValue (cs : List Char) : Nat := cs.foldl (fun acc c => 10 * acc + digitValue c) 0

/-! ## Lemmas on the photo fan-out -/

theorem digitValue_digitChar (d : Nat) (h : d < 10) : digitValue (Nat.digitChar d) = d := by
  interval_cases d <;> rfl

theorem digitChar_ne_minus (d : Nat) (h : d < 10) : Nat.digitChar d ≠ '-' := by
  interval_cases d <;> decide

theorem foldl_decimal (cs : List Char) (acc : Nat) :
    cs.foldl (fun acc c => 10 * acc + digitValue c) acc
        = acc * 10 ^ cs.length + decimalValue cs := by
  unfold decimalValue
  induction cs generalizing acc with
  | nil => simp
  | cons c cs ih =>
    rw [List.foldl_cons, List.foldl_cons, ih, ih (10 * 0 + digitValue c)]
    simp only [List.length_cons, pow_succ]
    ring

theorem decimalValue_cons (c : Char) (cs : List Char) :
    decimalValue (c :: cs) = digitValue c * 10 ^ cs.length + decimalValue cs := by
  show (c :: cs).foldl _ 0 = _
  rw [List.foldl_cons, foldl_decimal]
  simp

theorem decimalValue_toDigitsCore (fuel n : Nat) (ds : List Char) (h : n < fuel) :
    decimalValue (Nat.toDigitsCore 10 fuel n ds) = n * 10 ^ ds.length + decimalValue ds := by
  induction fuel generalizing n ds with
  | zero => omega
  | succ fuel ih =>
    unfold Nat.toDigitsCore
    simp only []
    split
    · rename_i h0
      rw [decimalValue_cons, digitValue_digitChar _ (Nat.mod_lt _ (by decide))]
      have : n % 10 = n := by omega
      rw [this]
    · rename_i h0
      rw [ih (n / 10) _ (by omega), decimalValue_cons,
        digitValue_digitChar _ (Nat.mod_lt _ (by decide))]
      simp only [List.length_cons, pow_succ]
      have hn := Nat.div_add_mod n 10
      generalize 10 ^ ds.length = p
      generalize decimalValue ds = v
      generalize n / 10 = q at hn
      generalize n % 10 = r at hn
      subst hn
      ring

theorem minus_not_mem_toDigitsCore (fuel n : Nat) (ds : List Char) (h : '-' ∉ ds) :
    '-' ∉ Nat.toDigitsCore 10 fuel n ds := by
  induction fuel generalizing n ds with
  | zero => simpa [Nat.toDigitsCore] using h
  | succ fuel ih =>
    unfold Nat.toDigitsCore
    simp only []
    have hd : '-' ∉ Nat.digitChar (n % 10) :: ds := by
      simp only [List.mem_cons, not_or]
      exact ⟨fun e => digitChar_ne_minus _ (Nat.mod_lt _ (by decide)) e.symm, h⟩
    split
    · exact hd
    · exact ih _ _ hd

theorem natRepr_injective (a b : Nat) (h : Nat.repr a = Nat.repr b) : a = b := by
  have hd : Nat.toDigits 10 a = Nat.toDigits 10 b := by
    have := congrArg String.data h
    simpa [Nat.repr, List.asString] using this
  have ha := decimalValue_toDigitsCore (a + 1) a [] (by omega)
  have hb := decimalValue_toDigitsCore (b + 1) b [] (by omega)
  unfold Nat.toDigits at hd
  rw [hd] at ha
  simp [decimalValue] at ha hb
  omega

theorem intToString_injective (a b : Int) (h : toString a = toString b) : a = b := by
  have hminus : ∀ n : Nat, '-' ∉ (Nat.repr n).data := fun n => by
    simpa [Nat.repr, List.asString,
        Nat.toDigits] using minus_not_mem_toDigitsCore (n + 1) n [] (by simp)
  cases a with
  | ofNat m =>
    cases b with
    | ofNat k =>
      have : Nat.repr m = Nat.repr k := h
      rw [natRepr_injective m k this]
    | negSucc k =>
      exfalso
      have h1 : Nat.repr m = "-" ++ Nat.repr (k + 1) := h
      have := hminus m
      rw [h1] at this
      simp at this
  | negSucc m =>
    cases b with
    | ofNat k =>
      exfalso
      have h1 : "-" ++ Nat.repr (m + 1) = Nat.repr k := h
      have := hminus k
      rw [← h1] at this
      simp at this
    | negSucc k =>
      have h1 : "-" ++ Nat.repr (m + 1) = "-" ++ Nat.repr (k + 1) := h
      have h2 := congrArg String.data h1
      simp only [String.data_append, List.append_cancel_left_eq] at h2
      have h3 : Nat.repr (m + 1) = Nat.repr (k + 1) := String.ext h2
      have h4 := natRepr_injective _ _ h3
      have h5 : m = k := by omega
      rw [h5]

theorem SafeInt.eq_of_val (a b : SafeInt) (h : a.val = b.val) : a = b := by
  cases a
  cases b
  simp only [SafeInt.mk.injEq]
  exact h

theorem getPhotoRequest_injective (a b : SafeInt) (h : getPhotoRequest a = getPhotoRequest b) :
    a = b := by
  simp [getPhotoRequest, FormData.append, JSValue.toStr] at h
  exact SafeInt.eq_of_val a b (intToString_injective a.val b.val h)


theorem getAllPhoto_vm (idProject : SafeInt) (w : World) : (getAllPhoto idProject w).vm = w.vm := by
  unfold getAllPhoto
  split <;> rfl

theorem getAllPhotoForAllProject_vm (projects : List EligibleProject) (w : World) :
    (getAllPhotoForAllProject projects w).vm = w.vm := by
  unfold getAllPhotoForAllProject
  induction projects generalizing w with
  | nil => rfl
  | cons p ps ih => rw [List.foldl_cons, ih, getAllPhoto_vm]

theorem getAllPhotoForAllProject_log (projects : List EligibleProject) (w : World) :
    (getAllPhotoForAllProject projects w).requests =
      w.requests ++
        (projects.filter (fun p => p.id.val != 0)).map (fun p => getPhotoRequest p.id) := by
  unfold getAllPhotoForAllProject
  induction projects generalizing w with
  | nil => simp
  | cons p ps ih =>
    rw [List.foldl_cons, ih]
    by_cases h : p.id.val = 0
    · simp [getAllPhoto, h]
    · simp [getAllPhoto, h]

theorem getPhotoRequest_eq (idProject : SafeInt) :
    getPhotoRequest idProject =
      { method := "POST", url := "/api/get-photo",
        body := [("idProject", .text (toString idProject.val))],
        headers := [("Content-Type", none)] } := by
  simp [getPhotoRequest, FormData.append, JSValue.toStr]

/-! ## Lemmas on the photo fan-in -/

theorem pushPhotos_append (data : List JSValue) (photos : List JSValue) :
    pushPhotos data photos = (photos ++ (pushPhotos data []).1, (pushPhotos data []).2) := by
  induction data generalizing photos with
  | nil => simp [pushPhotos]
  | cons value rest ih =>
    unfold pushPhotos
    cases h : photoRecord value with
    | error e => simp
    | ok record =>
      simp only []
      rw [ih (photos ++ [record]), ih ([] ++ [record])]
      simp

theorem getAllPhotoSuccess_photos (data : List JSValue) (vm : VM) :
    (getAllPhotoSuccess data vm).1 =
      { vm with photos := vm.photos ++ (pushPhotos data []).1 } := by
  unfold getAllPhotoSuccess
  rw [pushPhotos_append]
  cases (pushPhotos data []).2 <;> rfl

theorem handleLeg_eq (vm : VM) (leg : LegResult) :
    handleLeg vm leg = { vm with photos := vm.photos ++ leg.contribution } := by
  cases leg with
  | success data => simp [handleLeg, getAllPhotoSuccess_photos, LegResult.contribution]
  | failure err => simp [handleLeg, getAllPhotoError, LegResult.contribution]

theorem runLegs_eq (legs : List LegResult) (vm : VM) :
    runLegs legs vm = { vm with photos := vm.photos ++ legs.flatMap LegResult.contribution } := by
  unfold runLegs
  induction legs generalizing vm with
  | nil => simp
  | cons leg rest ih =>
    rw [List.foldl_cons, ih, handleLeg_eq]
    simp

theorem photoRecord_shaped (value id link : JSValue) (h : shapedPhoto value = some (id, link)) :
    photoRecord value = .ok (.obj [("idproject", id), ("link", link)]) := by
  cases value with
  | obj fields =>
    simp only [shapedPhoto] at h
    split at h
    · rename_i pic link' hpic hlink
      split at h
      · rename_i id' hid
        simp only [Option.some.injEq, Prod.mk.injEq] at h
        obtain ⟨rfl, rfl⟩ := h
        simp [photoRecord, JSValue.member, hpic, hlink, hid, bind, Except.bind, pure, Except.pure]
      · simp at h
    · simp at h
  | _ => simp [shapedPhoto] at h

theorem pushPhotos_shaped (data : List JSValue) (items : List (JSValue × JSValue))
    (h : data.map shapedPhoto = items.map some) (photos : List JSValue) :
    pushPhotos data photos =
      (photos ++ items.map (fun item => .obj [("idproject", item.1), ("link", item.2)]), none) := by
  induction data generalizing items photos with
  | nil =>
    cases items with
    | nil => simp [pushPhotos]
    | cons _ _ => simp at h
  | cons value rest ih =>
    cases items with
    | nil => simp at h
    | cons item items =>
      simp only [List.map_cons, List.cons.injEq] at h
      unfold pushPhotos
      rw [photoRecord_shaped value item.1 item.2 h.1]
      simp only []
      rw [ih items h.2]
      simp

theorem photoRecord_lacks (value : JSValue) (h : lacksProjectPIC value = true) :
    photoRecord value = .error .typeError := by
  cases value with
  | obj fields =>
    simp only [lacksProjectPIC, Option.isNone_iff_eq_none] at h
    simp [photoRecord, JSValue.member, h, bind, Except.bind]
  | _ => simp [lacksProjectPIC] at h

theorem photoRecord_ok (value record : JSValue) (h : photoRecord value = .ok record) :
    ∃ pic id link : JSValue, value.member "projectPIC" = .ok pic ∧ pic.member "id" = .ok id ∧
      record = .obj [("idproject", id), ("link", link)] := by
  unfold photoRecord at h
  cases hpic : value.member "projectPIC" with
  | error e => simp [hpic, bind, Except.bind] at h
  | ok pic =>
    cases hid : pic.member "id" with
    | error e => simp [hpic, hid, bind, Except.bind] at h
    | ok id =>
      cases hlink : value.member "link" with
      | error e => simp [hpic, hid, hlink, bind, Except.bind] at h
      | ok link =>
        simp [hpic, hid, hlink, bind, Except.bind, pure, Except.pure] at h
        exact ⟨pic, id, link, rfl, hid, h.symm⟩

theorem mem_pushPhotos (data : List JSValue) (record : JSValue)
    (h : record ∈ (pushPhotos data []).1) : ∃ value ∈ data, photoRecord value = .ok record := by
  induction data with
  | nil => simp [pushPhotos] at h
  | cons value rest ih =>
    unfold pushPhotos at h
    cases hrec : photoRecord value with
    | error e => simp [hrec] at h
    | ok first =>
      simp only [hrec] at h
      rw [pushPhotos_append] at h
      simp only [List.nil_append, List.singleton_append, List.mem_cons] at h
      rcases h with rfl | h
      · exact ⟨value, List.mem_cons_self _ _, hrec⟩
      · obtain ⟨v, hv, hvr⟩ := ih h
        exact ⟨v, List.mem_cons_of_mem _ hv, hvr⟩

theorem fanOut_request_listed (result : List EligibleProject) (w : World) (idProject : SafeInt)
    (h : getPhotoRequest idProject ∈
      (getEligibleProjects (.success result) w).requests.drop w.requests.length) :
    ∃ p ∈ result, p.id = idProject := by
  simp only [getEligibleProjects, queryCallback, getAllPhotoForAllProject_log,
    List.drop_left, List.mem_map, List.mem_filter] at h
  obtain ⟨p, ⟨hp, _⟩, heq⟩ := h
  exact ⟨p, hp, getPhotoRequest_injective _ _ heq⟩

theorem getEligibleProjects_vm (result : List EligibleProject) (w : World) :
    (getEligibleProjects (.success result) w).vm = { w.vm with eligibleProjects := result } := by
  simp [getEligibleProjects, queryCallback, getAllPhotoForAllProject_vm]

theorem pushPhotos_lacking (pre : List JSValue) (items : List (JSValue × JSValue))
    (bad : JSValue) (post : List JSValue) (hpre : pre.map shapedPhoto = items.map some)
    (hbad : lacksProjectPIC bad = true) (photos : List JSValue) :
    pushPhotos (pre ++ bad :: post) photos =
      (photos ++ items.map (fun item => .obj [("idproject", item.1), ("link", item.2)]),
        some .typeError) := by
  induction pre generalizing items photos with
  | nil =>
    cases items with
    | nil => simp [pushPhotos, photoRecord_lacks bad hbad]
    | cons _ _ => simp at hpre
  | cons value rest ih =>
    cases items with
    | nil => simp at hpre
    | cons item items =>
      simp only [List.map_cons, List.cons.injEq] at hpre
      rw [List.cons_append]
      unfold pushPhotos
      rw [photoRecord_shaped value item.1 item.2 hpre.1]
      simp only []
      rw [ih items hpre.2]
      simp

theorem saveFormData_eq (vm : FormVM) :
    saveFormData vm =
      [("images", match vm.fileToUpload with
          | .blob b => .file b
          | .js v => .text v.toStr
          | .fileList _ => .text "[object FileList]"),
        ("activities", .text (JSValue.joinStr vm.allActivities)),
        ("description", .text vm.description),
        ("title", .text vm.titre.toStr)] := by
  simp [saveFormData, FormData.append, JSValue.toStr]

/-! ## Claims -/

/-- C1. For every list of projects with integer ids (safe integers, which JavaScript holds
exactly), `getAllPhotoForAllProject` adds to the `$http` log exactly one `POST /api/get-photo`
request, with the single part `idProject` holding the id in decimal, for each project whose id
is not 0, in list order, and none for an id of 0; the view model is untouched.
A list of 10 projects with two ids equal to 0 issues 8 requests, and the list of ids 1, 0, 2
issues the requests for 1 and 2. -/
theorem getAllPhotoForAllProject_requests (projects : List EligibleProject) (w : World) :
    (getAllPhotoForAllProject projects w).requests =
        w.requests ++ (projects.filter (fun p => p.id.val != 0)).map (fun p =>
          { method := "POST", url := "/api/get-photo",
            body := [("idProject", .text (toString p.id.val))],
            headers := [("Content-Type", none)] })
    ∧ (getAllPhotoForAllProject projects w).vm = w.vm
    ∧ (projects.length = 10 → (projects.filter (fun p => p.id.val == 0)).length = 2 →
        (getAllPhotoForAllProject projects w).requests.length = w.requests.length + 8)
    ∧ (getAllPhotoForAllProject [⟨⟨1, by decide⟩, []⟩, ⟨⟨0, by decide⟩, []⟩,
        ⟨⟨2, by decide⟩, []⟩] w).requests =
        w.requests ++
          [{ method := "POST", url := "/api/get-photo", body := [("idProject", .text "1")],
             headers := [("Content-Type", none)] },
           { method := "POST", url := "/api/get-photo", body := [("idProject", .text "2")],
             headers := [("Content-Type", none)] }] := by
  refine ⟨?_, getAllPhotoForAllProject_vm projects w, ?_, ?_⟩
  · rw [getAllPhotoForAllProject_log]
    simp [getPhotoRequest_eq]
  · intro hlen hzero
    rw [getAllPhotoForAllProject_log, List.length_append, List.length_map]
    have hsplit := List.length_eq_length_filter_add (l := projects) (fun p => p.id.val == 0)
    have hneg : (projects.filter (fun p => !(p.id.val == 0)))
        = projects.filter (fun p => p.id.val != 0) := by
      rfl
    rw [hneg] at hsplit
    omega
  · rw [getAllPhotoForAllProject_log]
    simp only [getPhotoRequest_eq]
    exact congrArg (w.requests ++ ·) (by decide)

/-- Witness of C1: ten projects, the third and the seventh with id 0. -/
theorem getAllPhotoForAllProject_requests_witness :
    (getAllPhotoForAllProject
        [⟨⟨4, by decide⟩, []⟩, ⟨⟨9, by decide⟩, []⟩, ⟨⟨0, by decide⟩, []⟩, ⟨⟨7, by decide⟩, []⟩,
         ⟨⟨1, by decide⟩, []⟩, ⟨⟨3, by decide⟩, []⟩, ⟨⟨0, by decide⟩, []⟩, ⟨⟨8, by decide⟩, []⟩,
         ⟨⟨2, by decide⟩, []⟩, ⟨⟨5, by decide⟩, []⟩]
        ⟨VM.initial, []⟩).requests.length = 8 := by
  have h := (getAllPhotoForAllProject_requests
    [⟨⟨4, by decide⟩, []⟩, ⟨⟨9, by decide⟩, []⟩, ⟨⟨0, by decide⟩, []⟩, ⟨⟨7, by decide⟩, []⟩,
     ⟨⟨1, by decide⟩, []⟩, ⟨⟨3, by decide⟩, []⟩, ⟨⟨0, by decide⟩, []⟩, ⟨⟨8, by decide⟩, []⟩,
     ⟨⟨2, by decide⟩, []⟩, ⟨⟨5, by decide⟩, []⟩]
    ⟨VM.initial, []⟩).2.2.1 (by decide) (by decide)
  simpa using h

/-- C2, counterexample. From the empty collection, the response `[{projectPIC: {id: 1},
link: "/a.png"}]` does not leave `[{projectId: 1, link: "/a.png"}]`: the record the callback
pushes has the key `idproject`. -/
theorem getAllPhotoSuccess_not_projectId :
    (getAllPhotoSuccess
        [.obj [("projectPIC", .obj [("id", .num ⟨1, by decide⟩)]), ("link", .str "/a.png")]]
        VM.initial).1.photos
      ≠ VM.initial.photos ++ [.obj [("projectId", .num ⟨1, by decide⟩),
          ("link", .str "/a.png")]] := by
  simp [getAllPhotoSuccess, pushPhotos, photoRecord, JSValue.member, VM.initial, bind,
    Except.bind, pure, Except.pure, List.lookup]

/-- C2, amended. For every view model and every response array whose elements are shaped
`{projectPIC: {id}, link}`, the success callback of `getAllPhoto` returns `true` and leaves the
photo collection equal to the previous one followed by one record
`{idproject: projectPIC.id, link: link}` per element, in payload order; nothing else in the
view model changes. -/
theorem getAllPhotoSuccess_appends (vm : VM) (data : List JSValue)
    (items : List (JSValue × JSValue)) (h : data.map shapedPhoto = items.map some) :
    getAllPhotoSuccess data vm =
      ({ vm with photos := vm.photos ++
            items.map (fun item => .obj [("idproject", item.1), ("link", item.2)]) },
        .returned (.bool true)) := by
  unfold getAllPhotoSuccess
  rw [pushPhotos_shaped data items h]

/-- Witness of C2, amended: from the empty collection, one photo of project 1 with link
`/a.png` yields exactly `[{idproject: 1, link: "/a.png"}]`. -/
theorem getAllPhotoSuccess_appends_witness :
    (getAllPhotoSuccess
        [.obj [("projectPIC", .obj [("id", .num ⟨1, by decide⟩)]), ("link", .str "/a.png")]]
        VM.initial).1.photos
      = [.obj [("idproject", .num ⟨1, by decide⟩), ("link", .str "/a.png")]] := by
  rw [getAllPhotoSuccess_appends VM.initial _ [(.num ⟨1, by decide⟩, .str "/a.png")] (by rfl)]
  rfl

/-- C3. The error callback of `getAllPhoto` leaves the view model, so the photo collection and
the eligible-project list, as it was. Hence a run in which one leg fails ends with the photo
collection of the other legs alone, and with the project list it had, which is also the list of
the run in which that leg succeeds. -/
theorem getAllPhotoError_isolated (vm : VM) (err : JSValue) (before after : List LegResult) :
    (getAllPhotoError err vm).1.photos = vm.photos
    ∧ (getAllPhotoError err vm).1.eligibleProjects = vm.eligibleProjects
    ∧ (runLegs (before ++ .failure err :: after) vm).photos
        = (runLegs (before ++ after) vm).photos
    ∧ (runLegs (before ++ .failure err :: after) vm).eligibleProjects = vm.eligibleProjects
    ∧ ∀ data : List JSValue,
        (runLegs (before ++ .failure err :: after) vm).eligibleProjects
          = (runLegs (before ++ .success data :: after) vm).eligibleProjects := by
  refine ⟨rfl, rfl, ?_, ?_, ?_⟩
  · simp [runLegs_eq, LegResult.contribution]
  · simp [runLegs_eq]
  · intro data
    simp [runLegs_eq]

/-- C4. For every view model and every two completion orders of the same leg results, the final
photo collections are permutations of each other. -/
theorem runLegs_perm (vm : VM) (legs legs' : List LegResult) (h : legs.Perm legs') :
    (runLegs legs vm).photos.Perm (runLegs legs' vm).photos := by
  rw [runLegs_eq, runLegs_eq]
  exact List.Perm.append_left _ (List.Perm.flatMap_right _ h)

/-- Witness of C4: two successes and a failure settling in two different orders. -/
theorem runLegs_perm_witness :
    (runLegs
        [.success [.obj [("projectPIC", .obj [("id", .num ⟨1, by decide⟩)]),
            ("link", .str "/a.png")]],
         .failure .null,
         .success [.obj [("projectPIC", .obj [("id", .num ⟨2, by decide⟩)]),
             ("link", .str "/b.png")]]]
        VM.initial).photos.Perm
      (runLegs
        [.success [.obj [("projectPIC", .obj [("id", .num ⟨2, by decide⟩)]),
            ("link", .str "/b.png")]],
         .success [.obj [("projectPIC", .obj [("id", .num ⟨1, by decide⟩)]),
             ("link", .str "/a.png")]],
         .failure .null]
        VM.initial).photos :=
  runLegs_perm VM.initial _ _
    ((List.Perm.cons _ (List.Perm.swap _ _ [])).trans (List.Perm.swap _ _ _))

/-- C5, counterexample. From the constructor, with the list `[{id: 1}]` and the leg of project 1
answering `[{projectPIC: {id: 2}, link: "/b.png"}]`, the photo collection holds an entry of
project 2, which the list does not contain; and a collection that holds an entry before
`getEligibleProjects` runs still holds it afterwards. -/
theorem photos_not_all_listed :
    (¬ ∀ photo ∈ (runLegs
          [.success [.obj [("projectPIC", .obj [("id", .num ⟨2, by decide⟩)]),
              ("link", .str "/b.png")]]]
          (home_eligibleProjectsController (.success [⟨⟨1, by decide⟩, []⟩]) []).vm).photos,
        ∃ p ∈ ([⟨⟨1, by decide⟩, []⟩] : List EligibleProject),
            photo.member "idproject" = .ok (.num p.id))
    ∧ (¬ ∀ photo ∈ (runLegs []
          (getEligibleProjects (.success [⟨⟨1, by decide⟩, []⟩])
            ⟨{ VM.initial with photos := [.obj [("idproject", .num ⟨7, by decide⟩),
                ("link", .str "/c.png")]] },
              []⟩).vm).photos,
        ∃ p ∈ ([⟨⟨1, by decide⟩, []⟩] : List EligibleProject),
            photo.member "idproject" = .ok (.num p.id)) := by
  constructor
  · simp [runLegs_eq, getEligibleProjects_vm, home_eligibleProjectsController, VM.initial,
      LegResult.contribution, pushPhotos, photoRecord, JSValue.member, bind, Except.bind, pure,
      Except.pure, List.lookup]
  · simp [runLegs_eq, getEligibleProjects_vm, VM.initial, JSValue.member, List.lookup]

/-- C5, amended. When the photo collection is empty as `getEligibleProjects` runs (as it is in
the constructor) and every settled leg is one of the legs this run fanned out and answers with
photos of the project it asked for only, every entry of the photo collection is a record
`{idproject, link}` whose `idproject` is the id of a project of the list response. -/
theorem photos_of_listed_projects (w : World) (result : List EligibleProject)
    (settled : List SettledLeg) (hempty : w.vm.photos = [])
    (hlegs : ∀ leg ∈ settled, getPhotoRequest leg.idProject ∈
      (getEligibleProjects (.success result) w).requests.drop w.requests.length)
    (hown : ∀ leg ∈ settled, leg.ownPhotosOnly = true) :
    ∀ photo ∈ (runLegs (settled.map (fun leg => leg.result))
        (getEligibleProjects (.success result) w).vm).photos,
      ∃ p ∈ result, ∃ link : JSValue,
        photo = .obj [("idproject", .num p.id), ("link", link)] := by
  intro photo hphoto
  rw [runLegs_eq, getEligibleProjects_vm] at hphoto
  simp only [hempty, List.nil_append, List.mem_flatMap, List.mem_map] at hphoto
  obtain ⟨_, ⟨leg, hleg, rfl⟩, hmem⟩ := hphoto
  have hown' := hown leg hleg
  obtain ⟨p, hp, hpid⟩ := fanOut_request_listed result w leg.idProject (hlegs leg hleg)
  unfold SettledLeg.ownPhotosOnly at hown'
  cases hres : leg.result with
  | failure err => simp [hres, LegResult.contribution] at hmem
  | success data =>
    simp only [hres, LegResult.contribution] at hmem hown'
    obtain ⟨value, hvalue, hrecord⟩ := mem_pushPhotos data photo hmem
    obtain ⟨pic, id, link, hpic, hid, rfl⟩ := photoRecord_ok value _ hrecord
    have hanswer := List.all_eq_true.mp hown' value hvalue
    simp only [answersFor, hpic, hid] at hanswer
    cases id with
    | num n =>
      simp only [beq_iff_eq] at hanswer
      have hn : n = leg.idProject := SafeInt.eq_of_val n leg.idProject hanswer
      exact ⟨p, hp, link, by rw [hpid, hn]⟩
    | _ => simp at hanswer

/-- Witness of C5, amended: from the constructor's view model with the list of ids 1, 0, 2, the
leg of project 2 answers with one photo of project 2 and the leg of project 1 fails; the
photo then in the collection belongs to a project of the list. -/
theorem photos_of_listed_projects_witness :
    (.obj [("idproject", .num ⟨2, by decide⟩), ("link", .str "/b.png")] : JSValue) ∈ (runLegs
        [.success [.obj [("projectPIC", .obj [("id", .num ⟨2, by decide⟩)]),
            ("link", .str "/b.png")]],
         .failure .null]
        (getEligibleProjects (.success [⟨⟨1, by decide⟩, []⟩, ⟨⟨0, by decide⟩, []⟩,
            ⟨⟨2, by decide⟩, []⟩]) ⟨VM.initial, []⟩).vm).photos
    ∧ ∃ p ∈ ([⟨⟨1, by decide⟩, []⟩, ⟨⟨0, by decide⟩, []⟩,
        ⟨⟨2, by decide⟩, []⟩] : List EligibleProject), ∃ link : JSValue,
        (.obj [("idproject", .num ⟨2, by decide⟩), ("link", .str "/b.png")] : JSValue)
          = .obj [("idproject", .num p.id), ("link", link)] := by
  have hmem : (.obj [("idproject", .num ⟨2, by decide⟩), ("link", .str "/b.png")] : JSValue)
      ∈ (runLegs
      [.success [.obj [("projectPIC", .obj [("id", .num ⟨2, by decide⟩)]),
          ("link", .str "/b.png")]],
       .failure .null]
      (getEligibleProjects (.success [⟨⟨1, by decide⟩, []⟩, ⟨⟨0, by decide⟩, []⟩,
          ⟨⟨2, by decide⟩, []⟩]) ⟨VM.initial, []⟩).vm).photos := by
    simp [runLegs_eq, getEligibleProjects_vm, VM.initial, LegResult.contribution, pushPhotos,
      photoRecord, JSValue.member, bind, Except.bind, pure, Except.pure, List.lookup]
  refine ⟨hmem, ?_⟩
  exact photos_of_listed_projects ⟨VM.initial, []⟩ [⟨⟨1, by decide⟩, []⟩, ⟨⟨0, by decide⟩, []⟩,
      ⟨⟨2, by decide⟩, []⟩]
    [⟨⟨2, by decide⟩, .success [.obj [("projectPIC", .obj [("id", .num ⟨2, by decide⟩)]),
        ("link", .str "/b.png")]]⟩,
     ⟨⟨1, by decide⟩, .failure .null⟩]
    rfl
    (by
      intro leg hleg
      simp only [List.mem_cons, List.mem_singleton, List.not_mem_nil, or_false] at hleg
      rcases hleg with rfl | rfl <;> decide)
    (by
      intro leg hleg
      simp only [List.mem_cons, List.mem_singleton, List.not_mem_nil, or_false] at hleg
      rcases hleg with rfl | rfl <;> rfl)
    _ hmem

/-- C6, the code at the failing input. Whatever the draft's title `vm.title` is, the part
`title` of the body built by `vm.save` is `String(vm.titre)`; for the constructor's view model
with the title `Pont` typed in, and for the empty draft, it is the text `undefined`, while the
parts `activities` and `description` of the empty draft are empty. -/
theorem saveFormData_title_is_titre (vm : FormVM) :
    (saveFormData vm).lookup "title" = some (.text vm.titre.toStr)
    ∧ (saveFormData { FormVM.initial with title := "Pont" }).lookup "title"
        = some (.text "undefined")
    ∧ saveFormData FormVM.initial =
        [("images", .text "null"), ("activities", .text ""), ("description", .text ""),
         ("title", .text "undefined")] := by
  refine ⟨?_, by decide, by decide⟩
  rw [saveFormData_eq]
  simp [List.lookup]

/-- C7. For every form state, one call of `vm.save` adds exactly one request to the `$http`
log: a POST to `/api/create-new-project` whose body has the four parts `images`, `activities`,
`description`, `title` and whose `Content-Type` header is set to `undefined`; the view model is
untouched. The error callback issues nothing, and a second call with the same draft issues a
second, equal request. -/
theorem save_one_request (w : FormWorld) (err : JSValue) :
    (∃ r : Request, (save w).requests = w.requests ++ [r]
        ∧ r.method = "POST" ∧ r.url = "/api/create-new-project"
        ∧ r.body.map Prod.fst = ["images", "activities", "description", "title"]
        ∧ r.body.length = 4
        ∧ r.headers.lookup "Content-Type" = some none
        ∧ (save (save w)).requests = w.requests ++ [r, r])
    ∧ (save w).requests.length = w.requests.length + 1
    ∧ (saveError err (save w)).requests = (save w).requests
    ∧ (save (saveError err (save w))).requests.length = w.requests.length + 2
    ∧ (save w).vm = w.vm
    ∧ (save ⟨FormVM.initial, []⟩).requests.length = 1 := by
  refine ⟨⟨_, rfl, rfl, rfl, ?_, ?_, rfl, ?_⟩, ?_, rfl, ?_, rfl, rfl⟩
  · rw [saveFormData_eq]
    rfl
  · rw [saveFormData_eq]
    rfl
  · simp [save]
  · simp [save]
  · simp [save, saveError]

/-- C8, counterexample. From the empty collection, a response whose first element is well formed
and whose second element lacks `projectPIC` leaves the first element's photo in the collection:
the collection after the callback is not the collection before it. -/
theorem getAllPhotoSuccess_keeps_earlier :
    (getAllPhotoSuccess
        [.obj [("projectPIC", .obj [("id", .num ⟨1, by decide⟩)]), ("link", .str "/a.png")],
         .obj [("link", .str "/b.png")]]
        VM.initial).1.photos ≠ VM.initial.photos := by
  simp [getAllPhotoSuccess, pushPhotos, photoRecord, JSValue.member, VM.initial, bind,
    Except.bind, pure, Except.pure, List.lookup]

/-- C8, amended. For every view model and every response array whose first element lacking
`projectPIC` comes after elements shaped `{projectPIC: {id}, link}`, the success callback of
`getAllPhoto` throws a `TypeError` at that element and leaves the photo collection equal to the
collection before it ran followed by the records of the elements before that one; the elements
after it add nothing. The collection is unchanged when the response's first element lacks
`projectPIC`. -/
theorem getAllPhotoSuccess_lacking (vm : VM) (pre : List JSValue)
    (items : List (JSValue × JSValue)) (bad : JSValue) (post : List JSValue)
    (hpre : pre.map shapedPhoto = items.map some) (hbad : lacksProjectPIC bad = true) :
    getAllPhotoSuccess (pre ++ bad :: post) vm =
        ({ vm with photos := vm.photos ++
              items.map (fun item => .obj [("idproject", item.1), ("link", item.2)]) },
          .thrown .typeError)
    ∧ getAllPhotoSuccess (bad :: post) vm = (vm, .thrown .typeError) := by
  constructor
  · unfold getAllPhotoSuccess
    rw [pushPhotos_lacking pre items bad post hpre hbad]
  · unfold getAllPhotoSuccess
    have h := pushPhotos_lacking [] [] bad post rfl hbad vm.photos
    simp only [List.nil_append, List.map_nil, List.append_nil] at h
    rw [h]

/-- Witness of C8, amended: a well-formed element, then one without `projectPIC`, then a
well-formed one. -/
theorem getAllPhotoSuccess_lacking_witness :
    (getAllPhotoSuccess
        ([.obj [("projectPIC", .obj [("id", .num ⟨1, by decide⟩)]), ("link", .str "/a.png")]] ++
          .obj [("link", .str "/b.png")] ::
          [.obj [("projectPIC", .obj [("id", .num ⟨1, by decide⟩)]), ("link", .str "/c.png")]])
        VM.initial).1.photos
      = [.obj [("idproject", .num ⟨1, by decide⟩), ("link", .str "/a.png")]] := by
  rw [(getAllPhotoSuccess_lacking VM.initial
    [.obj [("projectPIC", .obj [("id", .num ⟨1, by decide⟩)]), ("link", .str "/a.png")]]
    [(.num ⟨1, by decide⟩, .str "/a.png")] (.obj [("link", .str "/b.png")])
    [.obj [("projectPIC", .obj [("id", .num ⟨1, by decide⟩)]), ("link", .str "/c.png")]]
    (by rfl) (by rfl)).1]
  rfl

/-- C9. `getEligibleProjects` is run once, by the constructor, on the view model the constructor
has just set up, whose eligible-project list is empty; the account lookup may fill in
`vm.account` and `vm.isAuthenticated` before the list fetch settles. In every such state, if the
list fetch fails the resulting eligible-project list is the empty sequence, no photo request is
issued, and nothing else changes, no callback being run that could throw; if it succeeds, the
eligible-project list is the server response, in its order. -/
theorem getEligibleProjects_list (account isAuthenticated err : JSValue)
    (result : List EligibleProject) (log : List Request) (w : World) :
    (home_eligibleProjectsController (.failure err) log).vm.eligibleProjects = []
    ∧ (home_eligibleProjectsController (.failure err) log).requests = log
    ∧ (home_eligibleProjectsController (.failure err) log).vm = VM.initial
    ∧ (getEligibleProjects (.failure err)
        ⟨{ VM.initial with account := account, isAuthenticated := isAuthenticated }, log⟩)
        = ⟨{ account := account, isAuthenticated := isAuthenticated, photos := [],
             eligibleProjects := [] }, log⟩
    ∧ (getEligibleProjects (.failure err) w).requests = w.requests
    ∧ (home_eligibleProjectsController (.success result) log).vm.eligibleProjects = result
    ∧ (getEligibleProjects (.success result)
        ⟨{ VM.initial with account := account, isAuthenticated := isAuthenticated }, log⟩
        ).vm.eligibleProjects = result
    ∧ (getEligibleProjects (.success result) w).vm.eligibleProjects = result := by
  refine ⟨rfl, rfl, rfl, rfl, rfl, ?_, ?_, ?_⟩
  · unfold home_eligibleProjectsController
    rw [getEligibleProjects_vm]
  · rw [getEligibleProjects_vm]
  · rw [getEligibleProjects_vm]

/-- C10. A full refresh is the construction of the controller, the only place where
`getEligibleProjects` is run, and the constructor sets `vm.photos = []` first. So for every
state before the refresh, including one whose photo collection is not empty, once the refresh
has received its list response and before any of its photo legs is handled the photo collection
is empty; the collection a refresh ends with is what its own legs contribute; and a second
refresh against the same server responses ends with the same photo collection as the first,
not with every photo twice. -/
theorem controller_photos_rebuilt (w : World) (response : ListResult) (legs : List LegResult) :
    (home_eligibleProjectsController response w.requests).vm.photos = []
    ∧ (runLegs legs (home_eligibleProjectsController response w.requests).vm).photos
        = legs.flatMap LegResult.contribution
    ∧ (runLegs legs (home_eligibleProjectsController response
          (home_eligibleProjectsController response w.requests).requests).vm).photos
        = (runLegs legs (home_eligibleProjectsController response w.requests).vm).photos := by
  have hphotos : ∀ v : World, (getEligibleProjects response v).vm.photos = v.vm.photos := by
    intro v
    cases response with
    | success result => rw [getEligibleProjects_vm]
    | failure err => rfl
  refine ⟨?_, ?_, ?_⟩
  · unfold home_eligibleProjectsController
    rw [hphotos]
    rfl
  · rw [runLegs_eq]
    unfold home_eligibleProjectsController
    simp only [hphotos]
    simp [VM.initial]
  · rw [runLegs_eq, runLegs_eq]
    unfold home_eligibleProjectsController
    simp only [hphotos]

end AppelOffre
